import Mathlib

/-!
Shallow embedding of the EchoGuard similarity and temporal-relevance engine.

Sources embedded here:
memory service (calculate_time_decay, rank_incidents_by_relevance,
create_incident_record, get_memory_snapshot, log_decision),
qdrant service (search_similar score conversion, apply_temporal_decay),
clip service (generate_hybrid_embedding).

Python floats are modelled as exact rationals; timestamps are modelled by
the age in hours of the record relative to the current time, with none
standing for a missing or unparsable timestamp; Python round(x, k) is
modelled as half-up decimal rounding.
-/

namespace EchoGuard

/-- Python round(x, 2), modelled as half-up decimal rounding over exact
rationals. -/
def round2 (x : ℚ) : ℚ := ((x * 100 + 1/2).floor : ℚ) / 100

/-- Python round(x, 1). -/
def round1 (x : ℚ) : ℚ := ((x * 10 + 1/2).floor : ℚ) / 10

/-! ### Memory service -/

/-- A candidate incident as consumed by rank_incidents_by_relevance: a
payload dictionary with optional similarity, severity and timestamp
fields.  The timestamp is represented by the age of the record in hours
(none when the field is missing or unparsable). -/
structure Incident where
  crisis_id : Nat
  similarity_score : Option ℚ := none
  severity : Option String := none
  age_hours : Option ℚ := none
  relevance_score : Option ℚ := none
deriving Repr, DecidableEq

/-- MemoryService.calculate_time_decay.  A missing or unparsable timestamp
takes the exception path and yields 1.0; otherwise the piecewise linear
decay is computed from the age in hours and rounded to 2 digits. -/
def calculate_time_decay (age_hours : Option ℚ) (decay_hours : ℚ := 24) : ℚ :=
  match age_hours with
  | none => 1
  | some h =>
      round2 (if h ≤ decay_hours then 1 else max (3/10) (1 - h / (decay_hours * 3) * (7/10)))

/-- Python SEVERITY_LEVELS.get(label, 0.5): look a severity label up in a
severity-weight table, defaulting to 0.5. -/
def severityWeight (levels : List (String × ℚ)) (label : String) : ℚ :=
  (levels.lookup label).getD (1/2)

/-- The loop body of rank_incidents_by_relevance: read the similarity
(default 0.5), the severity label (default "medium") and the time decay,
blend them 50/30/20 and store the rounded result as relevance_score. -/
def scoreIncident (levels : List (String × ℚ)) (inc : Incident) : Incident :=
  let similarity := inc.similarity_score.getD (1/2)
  let severity := severityWeight levels (inc.severity.getD ("medium"))
  let time_decay := calculate_time_decay inc.age_hours
  let combined_score := similarity * (1/2) + (time_decay * 100) * (3/10) + (severity * 100) * (1/5)
  { inc with relevance_score := some (round2 combined_score) }

/-- Sort key used by rank_incidents_by_relevance. -/
def relKey (inc : Incident) : ℚ := inc.relevance_score.getD 0

/-- MemoryService.rank_incidents_by_relevance: score every candidate, then
stable-sort descending by relevance_score (Python list.sort with
reverse=True is a stable sort; it is modelled by mergeSort). -/
def rank_incidents_by_relevance (levels : List (String × ℚ)) (incidents : List Incident) :
    List Incident :=
  (incidents.map (scoreIncident levels)).mergeSort (fun a b => decide (relKey b ≤ relKey a))

/-- An incident record as created by create_incident_record. -/
structure IncidentRecord where
  timestamp : String
  image_vector : List ℚ
  text_description : String
  metadata : List (String × String)
  responses : List String := []
  lessons_learned : List String := []
deriving Repr, DecidableEq

/-- A decision log entry as created by log_decision. -/
structure DecisionEntry where
  timestamp : String
  query : String
  decision : String
  confidence : ℚ
deriving Repr, DecidableEq

/-- The memory log holds both incident records and decision entries
(both are appended to the same self.memory_log list). -/
inductive MemEntry where
  | incident (r : IncidentRecord)
  | decision (e : DecisionEntry)
deriving Repr, DecidableEq

/-- MemoryService.create_incident_record: build the record, append it to
the memory log and return it.  The current wall-clock time is passed in
explicitly as now. -/
def create_incident_record (log : List MemEntry) (now : String) (image_vector : List ℚ)
    (text_input : String) (metadata : List (String × String)) :
    IncidentRecord × List MemEntry :=
  let r : IncidentRecord := ⟨now, image_vector, text_input, metadata, [], []⟩
  (r, log ++ [MemEntry.incident r])

/-- The value returned by get_memory_snapshot. -/
structure MemorySnapshot where
  total_incidents : Nat
  recent_incidents : List MemEntry
  timestamp : String
deriving Repr, DecidableEq

/-- MemoryService.get_memory_snapshot: total count, the last five entries
of the log (Python slice log with -5, empty log giving the empty list),
and the current time. -/
def get_memory_snapshot (log : List MemEntry) (now : String) : MemorySnapshot :=
  ⟨log.length, log.drop (log.length - 5), now⟩

/-- MemoryService.log_decision: build a decision entry, append it to the
memory log unconditionally, and return it. -/
def log_decision (log : List MemEntry) (now query decision : String) (confidence : ℚ) :
    DecisionEntry × List MemEntry :=
  let e : DecisionEntry := ⟨now, query, decision, confidence⟩
  (e, log ++ [MemEntry.decision e])

/-! ### Qdrant service -/

/-- The score conversion inside QdrantService.search_similar:
round(float(result.score) * 100, 2).  There is no validation branch in
the source, so the function is total. -/
def similarity_percent (raw_score : ℚ) : ℚ := round2 (raw_score * 100)

/-- A formatted search result as produced by search_similar and consumed
by apply_temporal_decay.  age_hours models the metadata timestamp as the
age of the record in hours; none stands for an unparsable timestamp (a
missing timestamp defaults to the current time, hence age 0). -/
structure SearchResult where
  crisis_id : Nat
  similarity_score : ℚ
  age_hours : Option ℚ := none
  original_score : Option ℚ := none
  time_decay_factor : Option ℚ := none
  hours_old : Option ℚ := none
deriving Repr, DecidableEq

/-- The decay-factor formula inside QdrantService.apply_temporal_decay:
full relevance strictly within 24 hours, then a linear ramp clamped at
0.3. -/
def temporal_decay_factor (hours_old : ℚ) : ℚ :=
  if hours_old < 24 then 1 else max (3/10) (1 - hours_old / 72 * (7/10))

/-- The per-result update of apply_temporal_decay: on a parsable
timestamp, save the incoming score under original_score, replace
similarity_score by the rounded decayed score and record the rounded
decay factor and age; on an unparsable timestamp, set age 0 and decay
factor 1 and leave the score untouched. -/
def decayOne (r : SearchResult) : SearchResult :=
  match r.age_hours with
  | some h =>
      let decay_factor := temporal_decay_factor h
      { r with
        original_score := some r.similarity_score
        similarity_score := round2 (r.similarity_score * decay_factor)
        time_decay_factor := some (round2 decay_factor)
        hours_old := some (round1 h) }
  | none =>
      { r with hours_old := some 0, time_decay_factor := some 1 }

/-- QdrantService.apply_temporal_decay: update every result, then
stable-sort descending by the (decayed) similarity score. -/
def apply_temporal_decay (results : List SearchResult) : List SearchResult :=
  (results.map decayOne).mergeSort
    (fun a b => decide (b.similarity_score ≤ a.similarity_score))

/-! ### CLIP service -/

/-- The weighted combination inside generate_hybrid_embedding:
image_vector * image_weight + text_vector * text_weight elementwise. -/
def combineVec (w : ℚ) (image_vector text_vector : List ℚ) : List ℚ :=
  List.zipWith (fun a b => w * a + (1 - w) * b) image_vector text_vector

/-- Squared Euclidean norm of a rational vector. -/
def sumSq (v : List ℚ) : ℚ := (v.map fun x => x * x).sum

/-- Squared Euclidean norm of a real vector. -/
def sumSqR (v : List ℝ) : ℝ := (v.map fun x => x * x).sum

/-- CLIPService.generate_hybrid_embedding: combine the two vectors with
the given weight, then divide by the Euclidean norm when it is positive
(np.linalg.norm(hybrid) is positive exactly when the sum of squares is),
and return the combined vector unchanged otherwise. -/
noncomputable def generate_hybrid_embedding (image_vector text_vector : List ℚ)
    (image_weight : ℚ := 3/5) : List ℝ :=
  let hybrid := combineVec image_weight image_vector text_vector
  if 0 < sumSq hybrid then
    hybrid.map (fun x : ℚ => (x : ℝ) / Real.sqrt ((sumSq hybrid : ℚ) : ℝ))
  else
    hybrid.map (fun x : ℚ => (x : ℝ))

/-! ### Helper lemmas -/

theorem ratFloor_eq_intFloor (q : ℚ) : q.floor = ⌊q⌋ := by
  rw [Rat.floor_def, Rat.floor_def']

theorem round2_eq (x : ℚ) (n : ℤ) (h1 : (n : ℚ) ≤ x * 100 + 1/2)
    (h2 : x * 100 + 1/2 < n + 1) : round2 x = (n : ℚ) / 100 := by
  rw [round2, ratFloor_eq_intFloor, Int.floor_eq_iff.mpr ⟨h1, h2⟩]

theorem calculate_time_decay_none : calculate_time_decay none = 1 := rfl

theorem calculate_time_decay_some (h : ℚ) :
    calculate_time_decay (some h) =
      round2 (if h ≤ 24 then 1 else max (3/10) (1 - h / (24 * 3) * (7/10))) := rfl

theorem calculate_time_decay_some_le (h : ℚ) (hle : h ≤ 24) :
    calculate_time_decay (some h) = 1 := by
  rw [calculate_time_decay_some, if_pos hle, round2_eq 1 100 (by norm_num) (by norm_num)]
  norm_num

theorem calculate_time_decay_some_gt (h : ℚ) (hgt : ¬ h ≤ 24) :
    calculate_time_decay (some h) = round2 (max (3/10) (1 - h / 72 * (7/10))) := by
  rw [calculate_time_decay_some, if_neg hgt]
  norm_num

theorem rank_singleton (levels : List (String × ℚ)) (inc : Incident) :
    rank_incidents_by_relevance levels [inc] = [scoreIncident levels inc] := by
  rw [rank_incidents_by_relevance]
  simp

theorem decayOne_some (r : SearchResult) (h : ℚ) (hage : r.age_hours = some h) :
    decayOne r = { r with
      original_score := some r.similarity_score
      similarity_score := round2 (r.similarity_score * temporal_decay_factor h)
      time_decay_factor := some (round2 (temporal_decay_factor h))
      hours_old := some (round1 h) } := by
  unfold decayOne
  rw [hage]

theorem sumSq_cons (x : ℚ) (xs : List ℚ) : sumSq (x :: xs) = x * x + sumSq xs := by
  simp [sumSq]

theorem sumSqR_cons (x : ℝ) (xs : List ℝ) : sumSqR (x :: xs) = x * x + sumSqR xs := by
  simp [sumSqR]

theorem sumSq_nonneg (v : List ℚ) : 0 ≤ sumSq v := by
  induction v with
  | nil => simp [sumSq]
  | cons x xs ih =>
    rw [sumSq_cons]
    exact add_nonneg (mul_self_nonneg x) ih

theorem sumSq_eq_zero (v : List ℚ) : sumSq v = 0 → ∀ x ∈ v, x = 0 := by
  induction v with
  | nil => intro _ x hx; simp at hx
  | cons y ys ih =>
    intro hv x hx
    rw [sumSq_cons] at hv
    have h1 : 0 ≤ y * y := mul_self_nonneg y
    have h2 : 0 ≤ sumSq ys := sumSq_nonneg ys
    rcases List.mem_cons.mp hx with h | h
    · rw [h]
      exact mul_self_eq_zero.mp (by linarith)
    · exact ih (by linarith) x h

theorem sumSqR_map_div (v : List ℚ) (c : ℝ) :
    sumSqR (v.map fun x : ℚ => (x : ℝ) / c) = ((sumSq v : ℚ) : ℝ) / (c * c) := by
  induction v with
  | nil => simp [sumSqR, sumSq]
  | cons x xs ih =>
    rw [List.map_cons, sumSqR_cons, ih, sumSq_cons]
    rw [div_mul_div_comm, div_add_div_same]
    push_cast
    ring_nf

theorem relLe_trans : ∀ a b c : Incident,
    (fun a b => decide (relKey b ≤ relKey a)) a b →
    (fun a b => decide (relKey b ≤ relKey a)) b c →
    (fun a b => decide (relKey b ≤ relKey a)) a c := by
  intro a b c hab hbc
  simp only [decide_eq_true_eq] at *
  exact le_trans hbc hab

theorem relLe_total : ∀ a b : Incident,
    ((fun a b => decide (relKey b ≤ relKey a)) a b ||
     (fun a b => decide (relKey b ≤ relKey a)) b a) := by
  intro a b
  simp only [Bool.or_eq_true, decide_eq_true_eq]
  exact le_total (relKey b) (relKey a)

/-! ### Claim theorems -/

/-- C2: with the default parameters, calculate_time_decay of a record
aged at most 24 hours is 1.0, and otherwise it is
max(0.3, 1 - (age/72) * 0.7) rounded to 2 decimal digits. -/
theorem calculate_time_decay_spec (h : ℚ) (hge : 0 ≤ h) :
    (h ≤ 24 → calculate_time_decay (some h) = 1) ∧
    (¬ h ≤ 24 → calculate_time_decay (some h) = round2 (max (3/10) (1 - h / 72 * (7/10)))) :=
  ⟨fun hle => calculate_time_decay_some_le h hle,
   fun hgt => calculate_time_decay_some_gt h hgt⟩

/-- Witness for C2 at age 100 hours: the decay is the clamped ramp value. -/
theorem calculate_time_decay_spec_witness :
    calculate_time_decay (some 100) = round2 (max (3/10) (1 - 100 / 72 * (7/10))) :=
  (calculate_time_decay_spec 100 (by norm_num)).2 (by norm_num)

/-- C3: the two decay computations diverge at an age of exactly 24 hours:
MemoryService.calculate_time_decay (whose freshness test is a weak
inequality) returns 1.0 there, while the decay factor of
QdrantService.apply_temporal_decay (whose freshness test is strict)
returns 0.77, refuting the claim that the two components compute one and
the same decay curve. -/
theorem decay_curves_diverge_at_24_hours :
    calculate_time_decay (some 24) = 1 ∧
    round2 (temporal_decay_factor 24) = 77/100 ∧
    calculate_time_decay (some 24) ≠ round2 (temporal_decay_factor 24) := by
  have h2 : temporal_decay_factor 24 = 23/30 := by
    rw [temporal_decay_factor, if_neg (by norm_num), max_eq_right (by norm_num)]
    norm_num
  have h1 : calculate_time_decay (some 24) = 1 := calculate_time_decay_some_le 24 le_rfl
  have h3 : round2 (23/30) = 77/100 := by
    rw [round2_eq (23/30) 77 (by norm_num) (by norm_num)]
    norm_num
  refine ⟨h1, by rw [h2, h3], ?_⟩
  rw [h1, h2, h3]
  norm_num

/-- C6 counterexample: the score conversion of search_similar has no
validation branch at all; at the negative raw score -0.5 it does not
fail but returns -50, a value outside the claimed range. -/
theorem similarity_percent_no_validation :
    similarity_percent (-(1/2)) = -50 ∧ ¬ 0 ≤ similarity_percent (-(1/2)) := by
  have h : similarity_percent (-(1/2)) = -50 := by
    rw [similarity_percent, round2_eq (-(1/2) * 100) (-5000) (by norm_num) (by norm_num)]
    norm_num
  refine ⟨h, ?_⟩
  rw [h]
  norm_num

/-- C6 amended: the conversion is total (no InvalidScore failure path
exists in the code); for every raw score in the interval from 0 to 1 it
returns round(raw_score * 100, 2), which lies between 0 and 100. -/
theorem similarity_percent_range (raw_score : ℚ) (h0 : 0 ≤ raw_score) (h1 : raw_score ≤ 1) :
    similarity_percent raw_score = round2 (raw_score * 100) ∧
    0 ≤ similarity_percent raw_score ∧ similarity_percent raw_score ≤ 100 := by
  refine ⟨rfl, ?_, ?_⟩
  · rw [similarity_percent, round2, ratFloor_eq_intFloor]
    have hf : (0:ℤ) ≤ ⌊raw_score * 100 * 100 + 1/2⌋ :=
      Int.floor_nonneg.mpr (by nlinarith)
    have hf2 : (0:ℚ) ≤ (⌊raw_score * 100 * 100 + 1/2⌋ : ℚ) := by exact_mod_cast hf
    exact div_nonneg hf2 (by norm_num)
  · rw [similarity_percent, round2, ratFloor_eq_intFloor]
    have hlt : raw_score * 100 * 100 + 1/2 < ((10001 : ℤ) : ℚ) := by
      push_cast
      nlinarith
    have hf : ⌊raw_score * 100 * 100 + 1/2⌋ < 10001 := Int.floor_lt.mpr hlt
    have hf2 : (⌊raw_score * 100 * 100 + 1/2⌋ : ℚ) ≤ 10000 := by
      have h3 : ⌊raw_score * 100 * 100 + 1/2⌋ ≤ 10000 := by omega
      exact_mod_cast h3
    rw [div_le_iff₀ (by norm_num : (0:ℚ) < 100)]
    linarith

/-- Witness for C6 amended at the spec scenario raw score 0.87: the
conversion gives a percentage inside the claimed range. -/
theorem similarity_percent_range_witness :
    0 ≤ similarity_percent (87/100) ∧ similarity_percent (87/100) ≤ 100 :=
  ⟨(similarity_percent_range (87/100) (by norm_num) (by norm_num)).2.1,
   (similarity_percent_range (87/100) (by norm_num) (by norm_num)).2.2⟩

/-- C7 counterexample: get_memory_snapshot takes no limit argument; after
appending three incidents it returns all three recent entries, not the
two most recent the claimed snapshot(2) call would give. -/
theorem snapshot_has_no_limit_parameter :
    ((get_memory_snapshot
        (create_incident_record
          (create_incident_record
            (create_incident_record [] ("t1") ([1]) ("a") []).2
            ("t2") ([2]) ("b") []).2
          ("t3") ([3]) ("c") []).2 ("now")).recent_incidents).length = 3 ∧
    (get_memory_snapshot
        (create_incident_record
          (create_incident_record
            (create_incident_record [] ("t1") ([1]) ("a") []).2
            ("t2") ([2]) ("b") []).2
          ("t3") ([3]) ("c") []).2 ("now")).total_incidents = 3 ∧
    (3 : Nat) ≠ 2 := by
  refine ⟨rfl, rfl, by norm_num⟩

/-- C7 amended: the snapshot has a fixed limit of five; it returns the at
most five most-recently-appended log entries, in insertion order (a
suffix of the log), together with the total number of entries; with
three incidents appended all three are returned and the total is 3. -/
theorem get_memory_snapshot_spec (log : List MemEntry) (now : String) :
    (get_memory_snapshot log now).total_incidents = log.length ∧
    (get_memory_snapshot log now).recent_incidents.length = min 5 log.length ∧
    (get_memory_snapshot log now).recent_incidents <:+ log := by
  refine ⟨rfl, ?_, ?_⟩
  · show (log.drop (log.length - 5)).length = min 5 log.length
    rw [List.length_drop]
    omega
  · exact List.drop_suffix _ _

/-- C8 counterexample: the decision logger of the memory service takes no
incident identifier and has no failure path; called on an empty memory
log, where no incident exists at all, it still appends the decision
entry instead of failing. -/
theorem log_decision_never_fails :
    (log_decision [] ("now") ("q") ("d") 90).2 =
      [MemEntry.decision ⟨("now"), ("q"), ("d"), 90⟩] ∧
    (log_decision [] ("now") ("q") ("d") 90).2 ≠ [] :=
  ⟨rfl, by simp [log_decision]⟩

/-- C8 amended: log_decision takes only a query, a decision and a
confidence; for every memory state it unconditionally appends the
decision entry to the memory log and returns that entry. -/
theorem log_decision_spec (log : List MemEntry) (now query decision : String)
    (confidence : ℚ) :
    (log_decision log now query decision confidence).1 =
      ⟨now, query, decision, confidence⟩ ∧
    (log_decision log now query decision confidence).2 =
      log ++ [MemEntry.decision ⟨now, query, decision, confidence⟩] :=
  ⟨rfl, rfl⟩

/-- C1 counterexample.  First input: a candidate with no severity label
under the table mapping medium to 0.9 is scored with weight 0.9 (the
code substitutes the label medium before the lookup), not with the
claimed default 0.5, giving relevance 98 where the claimed formula gives
90.  Second input: the stored relevance is rounded to 2 decimals, 40,
and differs from the claimed exact composite 40.0005. -/
theorem rank_severity_default_and_rounding :
    (rank_incidents_by_relevance [(("medium"), 9/10)]
        [{ crisis_id := 1, similarity_score := some 100 }]).map
      (fun i => i.relevance_score) = [some 98] ∧
    (98 : ℚ) ≠ 100 * (1/2) + (1 * 100) * (3/10) + ((1/2) * 100) * (1/5) ∧
    (rank_incidents_by_relevance []
        [{ crisis_id := 2, similarity_score := some (1/1000) }]).map
      (fun i => i.relevance_score) = [some 40] ∧
    (40 : ℚ) ≠ (1/1000) * (1/2) + (1 * 100) * (3/10) + ((1/2) * 100) * (1/5) := by
  have e1 : (scoreIncident [(("medium"), 9/10)]
      { crisis_id := 1, similarity_score := some 100 }).relevance_score =
      some (round2 (100 * (1/2) + (1 * 100) * (3/10) + ((9/10) * 100) * (1/5))) := rfl
  have e2 : (scoreIncident []
      { crisis_id := 2, similarity_score := some (1/1000) }).relevance_score =
      some (round2 ((1/1000) * (1/2) + (1 * 100) * (3/10) + ((1/2) * 100) * (1/5))) := rfl
  have hr1 : round2 (100 * (1/2) + (1 * 100) * (3/10) + ((9/10) * 100) * (1/5)) = 98 := by
    rw [round2_eq _ 9800 (by norm_num) (by norm_num)]
    norm_num
  have hr2 : round2 ((1/1000) * (1/2) + (1 * 100) * (3/10) + ((1/2) * 100) * (1/5)) = 40 := by
    rw [round2_eq _ 4000 (by norm_num) (by norm_num)]
    norm_num
  refine ⟨?_, by norm_num, ?_, by norm_num⟩
  · rw [rank_singleton]
    simp only [List.map_cons, List.map_nil]
    rw [e1, hr1]
  · rw [rank_singleton]
    simp only [List.map_cons, List.map_nil]
    rw [e2, hr2]

/-- C1 amended: rank_incidents_by_relevance returns a permutation of the
scored candidates, and each candidate is scored with
relevance = round(similarity * 0.5 + decay * 100 * 0.3 +
severity_weight * 100 * 0.2, 2), where the severity weight is looked up
from the candidate label after a missing label is replaced by medium,
the lookup itself defaulting to 0.5 for labels absent from the table. -/
theorem rank_relevance_formula (levels : List (String × ℚ)) (incidents : List Incident) :
    (rank_incidents_by_relevance levels incidents).Perm
      (incidents.map (scoreIncident levels)) ∧
    ∀ inc : Incident,
      (scoreIncident levels inc).relevance_score =
        some (round2 (inc.similarity_score.getD (1/2) * (1/2) +
          (calculate_time_decay inc.age_hours * 100) * (3/10) +
          (severityWeight levels (inc.severity.getD ("medium")) * 100) * (1/5))) :=
  ⟨List.mergeSort_perm _ _, fun _ => rfl⟩

/-- C5 counterexample: a candidate with a missing similarity field is
scored with the default similarity 0.5 (giving relevance 40.25), not
with similarity 0 (which would give relevance 40) as claimed. -/
theorem rank_missing_similarity_default_half :
    (rank_incidents_by_relevance [] [{ crisis_id := 1 }]).map
      (fun i => i.relevance_score) = [some (161/4)] ∧
    (161/4 : ℚ) ≠ 0 * (1/2) + (1 * 100) * (3/10) + ((1/2) * 100) * (1/5) := by
  have e1 : (scoreIncident [] { crisis_id := 1 }).relevance_score =
      some (round2 ((1/2) * (1/2) + (1 * 100) * (3/10) + ((1/2) * 100) * (1/5))) := rfl
  have hr1 : round2 ((1/2) * (1/2) + (1 * 100) * (3/10) + ((1/2) * 100) * (1/5)) = 161/4 := by
    rw [round2_eq _ 4025 (by norm_num) (by norm_num)]
    norm_num
  refine ⟨?_, by norm_num⟩
  rw [rank_singleton]
  simp only [List.map_cons, List.map_nil]
  rw [e1, hr1]

/-- C5 amended: every candidate appears in the ranked output (never
dropped), and the two defaults act independently: a candidate missing
its similarity field is scored as if the similarity were 0.5 (whatever
its other fields hold), and a candidate missing its timestamp is scored
as if the decay were 1.0 (whatever its other fields hold). -/
theorem rank_missing_fields (levels : List (String × ℚ)) (incidents : List Incident)
    (inc : Incident) (hmem : inc ∈ incidents) :
    scoreIncident levels inc ∈ rank_incidents_by_relevance levels incidents ∧
    (inc.similarity_score = none →
      (scoreIncident levels inc).relevance_score =
        some (round2 ((1/2) * (1/2) + (calculate_time_decay inc.age_hours * 100) * (3/10) +
          (severityWeight levels (inc.severity.getD ("medium")) * 100) * (1/5)))) ∧
    (inc.age_hours = none →
      (scoreIncident levels inc).relevance_score =
        some (round2 (inc.similarity_score.getD (1/2) * (1/2) + (1 * 100) * (3/10) +
          (severityWeight levels (inc.severity.getD ("medium")) * 100) * (1/5)))) := by
  refine ⟨?_, fun hsim => ?_, fun hts => ?_⟩
  · rw [rank_incidents_by_relevance, List.mem_mergeSort]
    exact List.mem_map_of_mem _ hmem
  · simp only [scoreIncident, hsim, Option.getD_none]
  · simp only [scoreIncident, hts, calculate_time_decay_none]

/-- Witness for C5 amended at a candidate missing only its timestamp: it
appears in the ranked output and is scored with decay 1.0 and its own
similarity 87, giving relevance 83.5. -/
theorem rank_missing_fields_witness :
    scoreIncident [] { crisis_id := 7, similarity_score := some 87 } ∈
      rank_incidents_by_relevance [] [{ crisis_id := 7, similarity_score := some 87 }] ∧
    (scoreIncident [] { crisis_id := 7, similarity_score := some 87 }).relevance_score =
      some (167/2) := by
  have h := rank_missing_fields [] [{ crisis_id := 7, similarity_score := some 87 }]
    { crisis_id := 7, similarity_score := some 87 } (List.mem_singleton_self _)
  refine ⟨h.1, ?_⟩
  rw [h.2.2 rfl]
  simp only [Option.getD_some, severityWeight, List.lookup_nil, Option.getD_none]
  rw [round2_eq _ 8350 (by norm_num) (by norm_num)]
  norm_num

/-- C9: ranking the empty candidate list yields the empty list, the
ranked output is sorted descending by relevance_score, and the sort is
stable: two scored candidates with equal relevance that appear in input
order remain in that order in the output. -/
theorem rank_descending_stable (levels : List (String × ℚ)) (incidents : List Incident) :
    rank_incidents_by_relevance levels [] = [] ∧
    (rank_incidents_by_relevance levels incidents).Pairwise
      (fun a b => relKey b ≤ relKey a) ∧
    (∀ a b : Incident, List.Sublist [a, b] (incidents.map (scoreIncident levels)) →
      relKey a = relKey b →
      List.Sublist [a, b] (rank_incidents_by_relevance levels incidents)) := by
  refine ⟨by simp [rank_incidents_by_relevance], ?_, ?_⟩
  · have hs := List.sorted_mergeSort relLe_trans relLe_total
      (incidents.map (scoreIncident levels))
    exact hs.imp (fun h => of_decide_eq_true h)
  · intro a b hsub heq
    refine List.sublist_mergeSort relLe_trans relLe_total ?_ hsub
    have hab : (decide (relKey b ≤ relKey a)) = true := decide_eq_true heq.ge
    exact List.Pairwise.cons (fun y hy => by rw [List.mem_singleton.mp hy]; exact hab)
      (List.pairwise_singleton _ _)

/-- Witness for C9 at the spec scenario of relevance scores 90, 90, 70 in
input order A, B, C: the tied pair A, B keeps its input order in the
ranked output. -/
theorem rank_descending_stable_witness :
    List.Sublist
      [scoreIncident [(("medium"), 1/2)] { crisis_id := 1, similarity_score := some 100 },
       scoreIncident [(("medium"), 1/2)] { crisis_id := 2, similarity_score := some 100 }]
      (rank_incidents_by_relevance [(("medium"), 1/2)]
        [{ crisis_id := 1, similarity_score := some 100 },
         { crisis_id := 2, similarity_score := some 100 },
         { crisis_id := 3, similarity_score := some 60 }]) :=
  (rank_descending_stable [(("medium"), 1/2)]
      [{ crisis_id := 1, similarity_score := some 100 },
       { crisis_id := 2, similarity_score := some 100 },
       { crisis_id := 3, similarity_score := some 60 }]).2.2 _ _
    (List.Sublist.cons₂ _ (List.Sublist.cons₂ _ (List.nil_sublist _))) rfl

/-- C10: apply_temporal_decay keeps every input candidate (the processed
record of every input is in the output), and on a parsable timestamp the
incoming similarity score is preserved under original_score while
similarity_score is replaced by round(incoming score * decay factor, 2). -/
theorem apply_temporal_decay_spec (results : List SearchResult) (r : SearchResult)
    (hmem : r ∈ results) :
    decayOne r ∈ apply_temporal_decay results ∧
    ∀ h : ℚ, r.age_hours = some h →
      (decayOne r).original_score = some r.similarity_score ∧
      (decayOne r).similarity_score = round2 (r.similarity_score * temporal_decay_factor h) := by
  constructor
  · simp only [apply_temporal_decay, List.mem_mergeSort]
    exact List.mem_map_of_mem _ hmem
  · intro h hage
    rw [decayOne_some r h hage]
    exact ⟨rfl, rfl⟩

/-- Witness for C10 at the spec scenario: similarity 60 at age 96 hours
is decayed and the record appears in the output. -/
theorem apply_temporal_decay_spec_witness :
    decayOne { crisis_id := 1, similarity_score := 60, age_hours := some 96 } ∈
      apply_temporal_decay [{ crisis_id := 1, similarity_score := 60, age_hours := some 96 }] :=
  (apply_temporal_decay_spec [{ crisis_id := 1, similarity_score := 60, age_hours := some 96 }]
    { crisis_id := 1, similarity_score := 60, age_hours := some 96 }
    (List.mem_singleton_self _)).1

/-- C4: for input vectors of equal dimension and any weight in the unit
interval, generate_hybrid_embedding returns the weighted combination
normalized to unit Euclidean norm (unit sum of squares) whenever the
combined vector has positive norm, and returns the combined vector
unchanged, which is then the zero vector, when its norm is zero, with no
division taking place in that branch. -/
theorem generate_hybrid_embedding_spec (image_vector text_vector : List ℚ) (w : ℚ)
    (hlen : image_vector.length = text_vector.length) (hw0 : 0 ≤ w) (hw1 : w ≤ 1) :
    (generate_hybrid_embedding image_vector text_vector w).length = image_vector.length ∧
    (0 < sumSq (combineVec w image_vector text_vector) →
      sumSqR (generate_hybrid_embedding image_vector text_vector w) = 1 ∧
      generate_hybrid_embedding image_vector text_vector w =
        (combineVec w image_vector text_vector).map
          (fun x : ℚ => (x : ℝ) /
            Real.sqrt ((sumSq (combineVec w image_vector text_vector) : ℚ) : ℝ))) ∧
    (sumSq (combineVec w image_vector text_vector) = 0 →
      generate_hybrid_embedding image_vector text_vector w =
        (combineVec w image_vector text_vector).map (fun x : ℚ => (x : ℝ)) ∧
      ∀ x ∈ combineVec w image_vector text_vector, x = 0) := by
  refine ⟨?_, fun hpos => ?_, fun hz => ?_⟩
  · simp only [generate_hybrid_embedding]
    split
    · simp [combineVec, hlen]
    · simp [combineVec, hlen]
  · have hbranch : generate_hybrid_embedding image_vector text_vector w =
        (combineVec w image_vector text_vector).map
          (fun x : ℚ => (x : ℝ) /
            Real.sqrt ((sumSq (combineVec w image_vector text_vector) : ℚ) : ℝ)) := by
      simp only [generate_hybrid_embedding]
      rw [if_pos hpos]
    refine ⟨?_, hbranch⟩
    rw [hbranch, sumSqR_map_div]
    have hnn : (0:ℝ) ≤ ((sumSq (combineVec w image_vector text_vector) : ℚ) : ℝ) := by
      exact_mod_cast sumSq_nonneg _
    rw [Real.mul_self_sqrt hnn]
    have hne : ((sumSq (combineVec w image_vector text_vector) : ℚ) : ℝ) ≠ 0 := by
      have hp : (0:ℝ) < ((sumSq (combineVec w image_vector text_vector) : ℚ) : ℝ) := by
        exact_mod_cast hpos
      exact ne_of_gt hp
    exact div_self hne
  · have hbranch : generate_hybrid_embedding image_vector text_vector w =
        (combineVec w image_vector text_vector).map (fun x : ℚ => (x : ℝ)) := by
      simp only [generate_hybrid_embedding]
      rw [if_neg (by rw [hz]; exact lt_irrefl 0)]
    exact ⟨hbranch, sumSq_eq_zero _ hz⟩

/-- Witness for C4 at the concrete fusion of the vector 3, 4 with itself
at weight one half: the returned embedding has unit sum of squares. -/
theorem generate_hybrid_embedding_spec_witness :
    sumSqR (generate_hybrid_embedding ([3, 4]) ([3, 4]) (1/2)) = 1 :=
  ((generate_hybrid_embedding_spec ([3, 4]) ([3, 4]) (1/2) rfl (by norm_num)
      (by norm_num)).2.1
    (by norm_num [combineVec, sumSq])).1

end EchoGuard
